import Mathlib

/-!
Shallow embedding of the matching and scoring engine of the AIJobMatching
repository (NestJS / TypeScript).  The definitions below are translated from
`src/agents/tools/matching-grade.tool.ts` (full version with the sophisticated
scorer), the result-merge step of `findMatchingCandidates` in `app.module.ts`
and `agents/job-processing.agent.ts`, and the `LLM_CONFIG` provider of the
agents module.  Strings are modelled as `List Char`; JavaScript numbers as `ℚ`;
optional values as `Option`; a JavaScript `Map` as an association list with
insert-or-overwrite semantics.
-/

/-- JavaScript `Math.round`: `Math.round(x) = floor(x + 0.5)`. -/
def jsRound (q : ℚ) : ℤ := ⌊q + 1/2⌋

/-- Test whether the list `big` starts with the list `small`. -/
def listStartsWith : List Char → List Char → Bool
  | _, [] => true
  | [], _ :: _ => false
  | c :: cs, d :: ds => c = d && listStartsWith cs ds

/-- JavaScript `big.includes(small)`: `small` occurs contiguously in `big`. -/
def strContains (big small : List Char) : Bool :=
  listStartsWith big small ||
    (match big with
     | [] => false
     | _ :: rest => strContains rest small)

/-- JavaScript `s.toLowerCase()` on the character list model. -/
def lowerStr (s : List Char) : List Char := s.map Char.toLower

/-- Normalisation used by `fuzzySkillMatch`:
`s.toLowerCase().replace(/[^a-z0-9]/g, '')`. -/
def normalizeSkillName (s : List Char) : List Char :=
  (s.map Char.toLower).filter (fun c => c.isLower || c.isDigit)

/-- The Levenshtein distance computed by `MatchingGradeTool.levenshteinDistance`.
The source fills the textbook dynamic-programming matrix
(`matrix[i][j]` from `matrix[i-1][j-1]`, `matrix[i][j-1]`, `matrix[i-1][j]`,
with first row and column equal to the indices); this recursive definition is
that same recurrence. -/
def levenshteinDistance : List Char → List Char → ℕ
  | [], b => b.length
  | a :: as, [] => (a :: as).length
  | a :: as, b :: bs =>
    if a = b then levenshteinDistance as bs
    else 1 + min (levenshteinDistance as bs)
          (min (levenshteinDistance (a :: as) bs) (levenshteinDistance as (b :: bs)))
termination_by a b => a.length + b.length

/-- The static abbreviation/variation table of `fuzzySkillMatch`. -/
def skillVariations : List (List Char × List (List Char)) :=
  [ ("javascript".data, ["js".data, "ecmascript".data, "es6".data, "es2015".data]),
    ("typescript".data, ["ts".data]),
    ("python".data, ["py".data, "python3".data]),
    ("postgresql".data, ["postgres".data, "psql".data, "pgsql".data]),
    ("mongodb".data, ["mongo".data]),
    ("kubernetes".data, ["k8s".data]),
    ("react".data, ["reactjs".data, "reactnative".data]),
    ("angular".data, ["angularjs".data, "ng".data]),
    ("vue".data, ["vuejs".data, "vue3".data]),
    ("node".data, ["nodejs".data, "node.js".data]),
    ("aws".data, ["amazonwebservices".data, "amazon".data]),
    ("gcp".data, ["googlecloud".data, "googlecloudplatform".data]),
    ("azure".data, ["microsoftazure".data]),
    ("sql".data, ["mysql".data, "mssql".data, "tsql".data]),
    ("excel".data, ["msexcel".data, "microsoftexcel".data]),
    ("word".data, ["msword".data, "microsoftword".data]),
    ("powerpoint".data, ["mspowerpoint".data, "ppt".data]),
    ("accounting".data, ["bookkeeping".data, "financialaccounting".data]),
    ("payroll".data, ["payrollprocessing".data, "payrollmanagement".data]) ]

/-- `allVariants.some(v => s.includes(v) || v.includes(s))` for one table entry. -/
def variantHit (s : List Char) (entry : List Char × List (List Char)) : Bool :=
  (entry.1 :: entry.2).any (fun v => strContains s v || strContains v s)

/-- `MatchingGradeTool.fuzzySkillMatch`: containment after normalisation, then
the variation table, then a Levenshtein distance of at most
`Math.floor(max(length) * 0.2)`. -/
def fuzzySkillMatch (required candidate : List Char) : Bool :=
  let req := normalizeSkillName required
  let cand := normalizeSkillName candidate
  (strContains req cand || strContains cand req) ||
  (skillVariations.any (fun e => variantHit req e && variantHit cand e)) ||
  (decide ((levenshteinDistance req cand : ℤ) ≤
    ⌊((max req.length cand.length : ℚ)) * (2/10)⌋))

/-- Skill proficiency levels of the candidate entity
(`level: beginner | intermediate | advanced | expert`). -/
inductive SkillLevel
  | beginner
  | intermediate
  | advanced
  | expert
deriving DecidableEq, Repr

/-- `skillLevelValues`: beginner 1, intermediate 2, advanced 3, expert 4. -/
def skillLevelValue : SkillLevel → ℚ
  | SkillLevel.beginner => 1
  | SkillLevel.intermediate => 2
  | SkillLevel.advanced => 3
  | SkillLevel.expert => 4

/-- The `Skill` entity: name, level, optional (possibly fractional) years. -/
structure Skill where
  name : List Char
  level : SkillLevel
  yearsOfExperience : Option ℚ
deriving DecidableEq, Repr

/-- The `JobRequirement` entity: skill name, required flag, optional minimum
years. -/
structure JobRequirement where
  skill : List Char
  required : Bool
  minYearsExperience : Option ℚ
deriving DecidableEq, Repr

/-- JavaScript `Map.set`: overwrite the value in place when the key exists,
otherwise append a new entry at the end. -/
def jsMapSet {α β : Type} [DecidableEq α] (m : List (α × β)) (k : α) (v : β) :
    List (α × β) :=
  if m.any (fun p => p.1 = k) then
    m.map (fun p => if p.1 = k then (k, v) else p)
  else m ++ [(k, v)]

/-- JavaScript `Map.get` (with `Map.has` as `(jsMapGet m k).isSome`). -/
def jsMapGet {α β : Type} [DecidableEq α] (m : List (α × β)) (k : α) : Option β :=
  (m.find? (fun p => p.1 = k)).map Prod.snd

/-- The `candidateSkillMap` built in `calculateSkillScores`:
`candidateSkillMap.set(skill.name.toLowerCase(), skill)` for each skill. -/
def buildSkillMap (skills : List Skill) : List (List Char × Skill) :=
  skills.foldl (fun m s => jsMapSet m (lowerStr s.name) s) []

/-- Requirement weight: `req.required ? 2 : 1`. -/
def reqWeight (r : JobRequirement) : ℚ := if r.required then 2 else 1

/-- The per-requirement skill lookup of `calculateSkillScores`: an exact map
lookup of the lower-cased requirement name first, then the first candidate
skill in map iteration order accepted by `fuzzySkillMatch`. -/
def findMatchedSkill (m : List (List Char × Skill)) (reqLower : List Char) :
    Option Skill :=
  match jsMapGet m reqLower with
  | some s => some s
  | none => (m.find? (fun p => fuzzySkillMatch reqLower p.1)).map Prod.snd

/-- `MatchingGradeTool.calculateProficiencyMatch`: the level score counts for
half; the years ratio (capped at 1) counts for the other half when the
requirement has a truthy minimum (nonzero) and the skill records years,
otherwise the level score is used again. -/
def calculateProficiencyMatch (candidateSkill : Skill)
    (requiredYears : Option ℚ) : ℚ :=
  let levelScore := (skillLevelValue candidateSkill.level / 4) * 100
  let base := levelScore * (1/2)
  match requiredYears, candidateSkill.yearsOfExperience with
  | some r, some y =>
    if r ≠ 0 then base + (min 1 (y / r)) * 100 * (1/2)
    else base + levelScore * (1/2)
  | _, _ => base + levelScore * (1/2)

/-- The contribution of one job requirement to `totalSkillPoints` in the loop
of `calculateSkillScores`: exact match 100 per weight unit, fuzzy-only match
80, unmatched required 0, unmatched preferred 20. -/
def skillMatchPoints (m : List (List Char × Skill)) (req : JobRequirement) : ℚ :=
  let reqLower := lowerStr req.skill
  match findMatchedSkill m reqLower with
  | some _ =>
    let matchQuality : ℚ := if (jsMapGet m reqLower).isSome then 100 else 80
    reqWeight req * matchQuality
  | none => if req.required then 0 else reqWeight req * 20

/-- The contribution of one job requirement to `totalProficiencyPoints`. -/
def profMatchPoints (m : List (List Char × Skill)) (req : JobRequirement) : ℚ :=
  match findMatchedSkill m (lowerStr req.skill) with
  | some s => reqWeight req * calculateProficiencyMatch s req.minYearsExperience
  | none => 0

/-- `MatchingGradeTool.calculateSkillScores`, restructured from the
accumulating loop into sums of the per-requirement contributions.  Returns
`(skillScore, proficiencyScore)`. -/
def calculateSkillScores (candidateSkills : List Skill)
    (jobRequirements : List JobRequirement) : ℚ × ℚ :=
  if jobRequirements.isEmpty then (50, 50)
  else
    let m := buildSkillMap candidateSkills
    let maxPoints := (jobRequirements.map (fun r => reqWeight r * 100)).sum
    let totalSkill := (jobRequirements.map (skillMatchPoints m)).sum
    let totalProf := (jobRequirements.map (profMatchPoints m)).sum
    let skillScore : ℚ :=
      if 0 < maxPoints then (jsRound (totalSkill / maxPoints * 100) : ℚ) else 50
    let profScore : ℚ :=
      if 0 < maxPoints then (jsRound (totalProf / maxPoints * 100) : ℚ) else 50
    (skillScore, profScore)

/-- The `missingRequiredSkills` list of `calculateSkillScores`: required
requirements with neither an exact nor a fuzzy candidate match. -/
def missingRequiredSkills (candidateSkills : List Skill)
    (jobRequirements : List JobRequirement) : List (List Char) :=
  let m := buildSkillMap candidateSkills
  (jobRequirements.filter
    (fun r => r.required && (findMatchedSkill m (lowerStr r.skill)).isNone)).map
    (fun r => r.skill)

/-- Branch of `calculateExperienceScore` for `0 <= diff <= 3`. -/
def expScorePerfect : ℚ := 100

/-- Branch of `calculateExperienceScore` for `3 < diff <= 7`:
`90 - (diff - 3) * 5`. -/
def expScoreMildOver (diff : ℚ) : ℚ := 90 - (diff - 3) * 5

/-- Branch of `calculateExperienceScore` for `diff > 7`:
`Math.max(50, 70 - (diff - 7) * 5)`. -/
def expScoreFarOver (diff : ℚ) : ℚ := max 50 (70 - (diff - 7) * 5)

/-- Branch of `calculateExperienceScore` for `-2 <= diff < 0`:
`80 + diff * 10`. -/
def expScoreMildUnder (diff : ℚ) : ℚ := 80 + diff * 10

/-- Branch of `calculateExperienceScore` for `diff < -2`:
`Math.max(20, 60 + diff * 10)`. -/
def expScoreFarUnder (diff : ℚ) : ℚ := max 20 (60 + diff * 10)

/-- The piecewise experience curve of `calculateExperienceScore` as a function
of `diff = candidateYears - requiredYears`. -/
def experienceCurve (diff : ℚ) : ℚ :=
  if 0 ≤ diff ∧ diff ≤ 3 then expScorePerfect
  else if 3 < diff ∧ diff ≤ 7 then expScoreMildOver diff
  else if 7 < diff then expScoreFarOver diff
  else if -2 ≤ diff then expScoreMildUnder diff
  else expScoreFarUnder diff

/-- The required-years derivation at the top of `calculateExperienceScore`:
when `requiredYears` is falsy (absent or 0), use the mean of the
per-requirement minimums (`minYearsExperience || 0`), and when that mean is
itself falsy (0, in particular when there are no requirements) use 3. -/
def deriveRequiredYears (requiredYears : Option ℚ)
    (requirements : List JobRequirement) : ℚ :=
  let derived : ℚ :=
    if requirements.isEmpty then 3
    else
      let avg := (requirements.map (fun r => r.minYearsExperience.getD 0)).sum /
        (requirements.length : ℚ)
      if avg = 0 then 3 else avg
  match requiredYears with
  | some r => if r = 0 then derived else r
  | none => derived

/-- `MatchingGradeTool.calculateExperienceScore`. -/
def calculateExperienceScore (candidateYears : ℚ) (requiredYears : Option ℚ)
    (requirements : List JobRequirement) : ℚ :=
  experienceCurve (candidateYears - deriveRequiredYears requiredYears requirements)

/-- Separator class of the location token split `split(/[,\s]+/)`. -/
def isLocSep (c : Char) : Bool := c = ',' || c.isWhitespace

/-- Dropping a matched run never lengthens a list. -/
theorem dropWhile_length_le (p : Char → Bool) (l : List Char) :
    (l.dropWhile p).length ≤ l.length := by
  induction l with
  | nil => simp
  | cons a t ih =>
    by_cases h : p a <;> simp [List.dropWhile_cons, h] <;> omega

/-- JavaScript `s.split(/[,\s]+/)` on the character-list model: split on
maximal runs of separators (a leading run yields an empty first token, a
trailing run an empty last token). -/
def splitLocTokens (s : List Char) : List (List Char) :=
  match h : s.dropWhile (fun c => !(isLocSep c)) with
  | [] => [s.takeWhile (fun c => !(isLocSep c))]
  | _ :: rest2 =>
    s.takeWhile (fun c => !(isLocSep c)) :: splitLocTokens (rest2.dropWhile isLocSep)
termination_by s.length
decreasing_by
  have h1 : (s.dropWhile (fun c => !(isLocSep c))).length ≤ s.length :=
    dropWhile_length_le _ _
  rw [h] at h1
  have h2 : (rest2.dropWhile isLocSep).length ≤ rest2.length :=
    dropWhile_length_le _ _
  simp only [List.length_cons] at h1
  omega

/-- The token loop of `calculateLocationScore`: some candidate token and some
job token, each longer than 2 characters, where one contains the other. -/
def tokenRegionMatch (candLoc jobLoc : List Char) : Bool :=
  (splitLocTokens candLoc).any (fun candPart =>
    (splitLocTokens jobLoc).any (fun jobPart =>
      decide (2 < candPart.length) && decide (2 < jobPart.length) &&
        (strContains candPart jobPart || strContains jobPart candPart)))

/-- `MatchingGradeTool.calculateLocationScore`.  A missing or empty job
location, or one containing `remote` after lower-casing, scores 100; a missing
or empty candidate location scores 50; containment in either direction scores
100; a token-level region match scores 80; anything else 40. -/
def calculateLocationScore (candidateLocation jobLocation : Option (List Char)) :
    ℚ :=
  match jobLocation with
  | none => 100
  | some jl =>
    if jl.isEmpty || strContains (lowerStr jl) "remote".data then 100
    else
      match candidateLocation with
      | none => 50
      | some cl =>
        if cl.isEmpty then 50
        else
          let candLoc := lowerStr cl
          let jobLoc := lowerStr jl
          if strContains candLoc jobLoc || strContains jobLoc candLoc then 100
          else if tokenRegionMatch candLoc jobLoc then 80
          else 40

/-- `MatchingWeights`: the six factor weights of the sophisticated scorer. -/
structure MatchingWeights where
  skillMatch : ℚ
  skillProficiency : ℚ
  experienceMatch : ℚ
  locationMatch : ℚ
  vectorSimilarity : ℚ
  sqlMatch : ℚ
deriving DecidableEq, Repr

/-- The hard-coded `defaultWeights` of `MatchingGradeTool`. -/
def defaultWeights : MatchingWeights :=
  { skillMatch := 35
    skillProficiency := 15
    experienceMatch := 20
    locationMatch := 10
    vectorSimilarity := 15
    sqlMatch := 5 }

/-- Sum of the six factor weights. -/
def weightSum (w : MatchingWeights) : ℚ :=
  w.skillMatch + w.skillProficiency + w.experienceMatch + w.locationMatch +
    w.vectorSimilarity + w.sqlMatch

/-- `CandidateMatchData` restricted to the fields the scorer reads
(`experience` and `education` are carried but never used by
`calculateSophisticatedScore`). -/
structure CandidateMatchData where
  skills : List Skill
  totalExperienceYears : ℚ
  location : Option (List Char)
deriving DecidableEq, Repr

/-- `JobMatchData` restricted to the fields the scorer reads. -/
structure JobMatchData where
  requirements : List JobRequirement
  location : Option (List Char)
  minExperienceYears : Option ℚ
deriving DecidableEq, Repr

/-- `MatchScoreBreakdown` without the free-text `reasoning`, `matchedSkills`
and `missingRequiredSkills` fields (the numeric part under verification;
`missingRequiredSkills` is modelled separately). -/
structure MatchScoreBreakdown where
  totalScore : ℤ
  skillScore : ℚ
  proficiencyScore : ℚ
  experienceScore : ℚ
  locationScore : ℚ
  vectorScore : ℚ
  sqlBonus : ℚ
deriving DecidableEq, Repr

/-- `MatchingGradeTool.calculateSophisticatedScore`: the weighted composite of
skill, proficiency, experience, location, normalised vector similarity
(`min(100, vectorScore * 100)`, 50 when absent) and the structured-match bonus,
rounded and clamped to `[0, 100]`. -/
def calculateSophisticatedScore (candidate : CandidateMatchData)
    (job : JobMatchData) (vectorScore : Option ℚ) (sqlMatch : Bool)
    (weights : MatchingWeights) : MatchScoreBreakdown :=
  let scores := calculateSkillScores candidate.skills job.requirements
  let skillScore := scores.1
  let proficiencyScore := scores.2
  let experienceScore := calculateExperienceScore candidate.totalExperienceYears
    job.minExperienceYears job.requirements
  let locationScore := calculateLocationScore candidate.location job.location
  let normalizedVectorScore : ℚ :=
    match vectorScore with
    | some v => min 100 (v * 100)
    | none => 50
  let sqlBonus : ℚ := if sqlMatch then 100 else 0
  let totalScore := jsRound
    ((skillScore * weights.skillMatch +
      proficiencyScore * weights.skillProficiency +
      experienceScore * weights.experienceMatch +
      locationScore * weights.locationMatch +
      normalizedVectorScore * weights.vectorSimilarity +
      sqlBonus * weights.sqlMatch) / 100)
  { totalScore := min 100 (max 0 totalScore)
    skillScore := skillScore
    proficiencyScore := proficiencyScore
    experienceScore := experienceScore
    locationScore := locationScore
    vectorScore := normalizedVectorScore
    sqlBonus := sqlBonus }

/-- Default of the `DUAL_MATCH_SCORE` configuration entry in the `LLM_CONFIG`
provider of the agents module. -/
def dualMatchScoreDefault : ℚ := 100

/-- `MatchingGradeTool.calculateFinalScore`, the degraded scorer: the
configured dual-match constant on a dual match; otherwise 70 points for a
structured match, `vectorScore * 80` for a similarity match, half the LLM
grade when one is supplied, normalised by `score / weights * 1.5` and capped
at 99 when more than one source contributed, then rounded. -/
def calculateFinalScore (dualMatchScore : ℚ) (sqlMatch vectorMatch : Bool)
    (vectorScore llmGrade : Option ℚ) : ℚ :=
  if sqlMatch && vectorMatch then dualMatchScore
  else
    let score1 : ℚ := if sqlMatch then 70 else 0
    let score2 : ℚ := score1 +
      (if vectorMatch && vectorScore.isSome then (vectorScore.getD 0) * 80 else 0)
    let score3 : ℚ := score2 +
      (match llmGrade with
       | some g => g * (1/2)
       | none => 0)
    let weights : ℚ := (if sqlMatch then 1 else 0) +
      (if vectorMatch && vectorScore.isSome then 1 else 0) +
      (if llmGrade.isSome then 1 else 0)
    let final : ℚ := if 1 < weights then min 99 (score3 / weights * (3/2)) else score3
    ((jsRound final : ℤ) : ℚ)

/-- One record of the merge map in `findMatchingCandidates` (`app.module.ts`
and `job-processing.agent.ts`): which sources found the candidate, and the
similarity score when the vector search did. -/
structure RetrievalEntry where
  sqlMatch : Bool
  vectorMatch : Bool
  vectorScore : Option ℚ
deriving DecidableEq, Repr

/-- One vector-merge step: if the candidate is already present, set
`vectorMatch` and attach the score; otherwise insert a vector-only record. -/
def mergeVectorStep (m : List (String × RetrievalEntry)) (r : String × ℚ) :
    List (String × RetrievalEntry) :=
  match jsMapGet m r.1 with
  | some e => jsMapSet m r.1 { e with vectorMatch := true, vectorScore := some r.2 }
  | none => jsMapSet m r.1 ⟨false, true, some r.2⟩

/-- The result merge of `findMatchingCandidates`: insert every SQL result with
`sqlMatch = true`, then fold the vector results with `mergeVectorStep`. -/
def mergeResults (sqlIds : List String) (vectorResults : List (String × ℚ)) :
    List (String × RetrievalEntry) :=
  let afterSql := sqlIds.foldl (fun m i => jsMapSet m i ⟨true, false, none⟩) []
  vectorResults.foldl mergeVectorStep afterSql

/-- The distance to the empty string is the length, from either side. -/
theorem levenshteinDistance_nil_right (a : List Char) :
    levenshteinDistance a [] = a.length := by
  cases a <;> simp [levenshteinDistance]

/-- Symmetry of the Levenshtein distance, by strong induction on the total
length. -/
theorem levenshteinDistance_comm_aux :
    ∀ (n : ℕ) (a b : List Char), a.length + b.length ≤ n →
      levenshteinDistance a b = levenshteinDistance b a := by
  intro n
  induction n with
  | zero =>
    intro a b h
    have ha : a = [] := by cases a <;> simp_all
    have hb : b = [] := by cases b <;> simp_all
    subst ha; subst hb; rfl
  | succ n ih =>
    intro a b h
    match a, b with
    | [], b => simp [levenshteinDistance, levenshteinDistance_nil_right]
    | a :: as, [] => simp [levenshteinDistance, levenshteinDistance_nil_right]
    | x :: xs, y :: ys =>
      simp only [List.length_cons] at h
      simp only [levenshteinDistance]
      by_cases hxy : x = y
      · rw [if_pos hxy, if_pos hxy.symm]
        exact ih xs ys (by omega)
      · have hyx : ¬ y = x := fun hh => hxy hh.symm
        rw [if_neg hxy, if_neg hyx]
        rw [ih xs ys (by omega), ih (x :: xs) ys (by simp; omega),
          ih xs (y :: ys) (by simp; omega)]
        rw [min_comm (levenshteinDistance ys (x :: xs))
          (levenshteinDistance (y :: ys) xs)]

/-- Symmetry of the Levenshtein distance. -/
theorem levenshteinDistance_comm (a b : List Char) :
    levenshteinDistance a b = levenshteinDistance b a :=
  levenshteinDistance_comm_aux (a.length + b.length) a b le_rfl

/-- C9: the fuzzy skill-name matcher is symmetric, and so is the Levenshtein
distance it relies on: for all strings `a` and `b`,
`fuzzySkillMatch a b = fuzzySkillMatch b a` and
`levenshteinDistance a b = levenshteinDistance b a`. -/
theorem fuzzySkillMatch_and_levenshtein_symm (a b : List Char) :
    fuzzySkillMatch a b = fuzzySkillMatch b a ∧
      levenshteinDistance a b = levenshteinDistance b a := by
  refine ⟨?_, levenshteinDistance_comm a b⟩
  simp only [fuzzySkillMatch]
  rw [Bool.or_comm (strContains (normalizeSkillName a) (normalizeSkillName b))
      (strContains (normalizeSkillName b) (normalizeSkillName a))]
  rw [levenshteinDistance_comm (normalizeSkillName a) (normalizeSkillName b)]
  rw [max_comm ((normalizeSkillName a).length : ℚ) ((normalizeSkillName b).length : ℚ)]
  have h2 : skillVariations.any
      (fun e => variantHit (normalizeSkillName a) e &&
        variantHit (normalizeSkillName b) e) =
      skillVariations.any
      (fun e => variantHit (normalizeSkillName b) e &&
        variantHit (normalizeSkillName a) e) := by
    simp only [Bool.and_comm]
  rw [h2]

/-- Swapping the two nested `any` quantifiers of a boolean predicate. -/
theorem any_any_swap {α β : Type} (l1 : List α) (l2 : List β) (p : α → β → Bool) :
    (l1.any fun x => l2.any fun y => p x y) =
      (l2.any fun y => l1.any fun x => p x y) := by
  rw [Bool.eq_iff_iff]
  simp only [List.any_eq_true]
  constructor
  · rintro ⟨x, hx, y, hy, h⟩
    exact ⟨y, hy, x, hx, h⟩
  · rintro ⟨y, hy, x, hx, h⟩
    exact ⟨x, hx, y, hy, h⟩

/-- The token-level region test of the location score is symmetric. -/
theorem tokenRegionMatch_comm (a b : List Char) :
    tokenRegionMatch a b = tokenRegionMatch b a := by
  simp only [tokenRegionMatch]
  rw [any_any_swap]
  congr 1
  funext y
  congr 1
  funext x
  rw [Bool.or_comm (strContains x y) (strContains y x)]
  rw [Bool.and_comm (decide (2 < x.length)) (decide (2 < y.length))]

/-- C8: for present (non-empty) location strings neither of which contains
`remote` after lower-casing, the location score is symmetric:
`calculateLocationScore A B = calculateLocationScore B A` (covering the
containment branch, 100, and the token-match branch, 80 and 40). -/
theorem calculateLocationScore_symm (a b : List Char)
    (ha : a ≠ []) (hb : b ≠ [])
    (hra : strContains (lowerStr a) "remote".data = false)
    (hrb : strContains (lowerStr b) "remote".data = false) :
    calculateLocationScore (some a) (some b) =
      calculateLocationScore (some b) (some a) := by
  have hae : a.isEmpty = false := by cases a <;> simp_all
  have hbe : b.isEmpty = false := by cases b <;> simp_all
  simp only [calculateLocationScore, hae, hbe, hra, hrb, Bool.or_false,
    Bool.false_or, if_false, Bool.false_eq_true, ite_false]
  rw [Bool.or_comm (strContains (lowerStr a) (lowerStr b))
    (strContains (lowerStr b) (lowerStr a))]
  rw [tokenRegionMatch_comm (lowerStr a) (lowerStr b)]

/-- Witness for C8 at the concrete locations `haifa` and `tel aviv israel`. -/
theorem calculateLocationScore_symm_witness :
    calculateLocationScore (some "haifa".data) (some "tel aviv israel".data) =
      calculateLocationScore (some "tel aviv israel".data) (some "haifa".data) :=
  calculateLocationScore_symm "haifa".data "tel aviv israel".data
    (by decide) (by decide) (by decide) (by decide)

/-- C4 counterexample: at the boundary `diff = -2` the two adjacent branches
of the experience curve disagree by 20 points, which exceeds the largest
per-year step constant (10) of the curve; the curve itself jumps from 60 at
`diff = -2` to 39 at `diff = -2.1`. -/
theorem experienceCurve_boundary_minus2_discontinuous :
    expScoreMildUnder (-2) - expScoreFarUnder (-2) = 20 ∧
      ¬(expScoreMildUnder (-2) - expScoreFarUnder (-2) ≤ 10) ∧
      experienceCurve (-2) = 60 ∧ experienceCurve (-21/10) = 39 := by
  have h1 : expScoreMildUnder (-2) = 60 := by norm_num [expScoreMildUnder]
  have h2 : expScoreFarUnder (-2) = 40 := by
    rw [expScoreFarUnder]
    norm_num
  have h3 : experienceCurve (-2) = 60 := by
    rw [experienceCurve]
    norm_num [expScoreMildUnder]
  have h4 : experienceCurve (-21/10) = 39 := by
    rw [experienceCurve]
    norm_num [expScoreFarUnder]
  refine ⟨by rw [h1, h2]; norm_num, by rw [h1, h2]; norm_num, h3, h4⟩

/-- C4 amended: `experienceCurve 0 = 100`; the adjacent branches agree exactly
at `diff = 7`, differ by exactly 10 at `diff = 3`, and differ by 20 at
`diff = -2` (a discontinuity). -/
theorem experienceCurve_boundaries :
    experienceCurve 0 = 100 ∧
      expScoreMildOver 7 = expScoreFarOver 7 ∧
      expScorePerfect - expScoreMildOver 3 = 10 ∧
      expScoreMildUnder (-2) - expScoreFarUnder (-2) = 20 := by
  refine ⟨?_, ?_, ?_, ?_⟩
  · rw [experienceCurve]
    norm_num [expScorePerfect]
  · rw [expScoreMildOver, expScoreFarOver]
    norm_num
  · rw [expScorePerfect, expScoreMildOver]
    norm_num
  · rw [expScoreMildUnder, expScoreFarUnder]
    norm_num

/-- C10: a minimum-years value of 0 is treated as an absent requirement: in
proficiency scoring `minYearsExperience = 0` (or a matched skill without
recorded years) makes the level-derived score stand in for the years
component, and in the experience curve a required-years of 0 is replaced by
the derived default rather than used as a zero-year requirement. -/
theorem zero_min_years_treated_as_absent (n : List Char) (lv : SkillLevel)
    (y : Option ℚ) (r : Option ℚ) (c : ℚ) (reqs : List JobRequirement) :
    calculateProficiencyMatch (Skill.mk n lv y) (some 0) =
        calculateProficiencyMatch (Skill.mk n lv y) none ∧
      calculateProficiencyMatch (Skill.mk n lv none) r =
        (skillLevelValue lv / 4) * 100 ∧
      calculateExperienceScore c (some 0) reqs =
        calculateExperienceScore c none reqs := by
  refine ⟨?_, ?_, ?_⟩
  · cases y <;> simp [calculateProficiencyMatch]
  · cases r <;> simp [calculateProficiencyMatch] <;> ring
  · simp [calculateExperienceScore, deriveRequiredYears]

/-- Rounding a nonnegative value stays nonnegative. -/
theorem jsRound_nonneg (q : ℚ) (h : 0 ≤ q) : (0:ℤ) ≤ jsRound q := by
  rw [jsRound]
  rw [Int.floor_nonneg]
  linarith

/-- Rounding a value at most an integer bound stays at most that bound. -/
theorem jsRound_le_int (q : ℚ) (B : ℤ) (h : q ≤ (B:ℚ)) : jsRound q ≤ B := by
  rw [jsRound]
  have hm : ⌊(q + 1/2 : ℚ)⌋ ≤ ⌊((B:ℚ) + 1/2)⌋ := Int.floor_mono (by linarith)
  rwa [Int.floor_int_add, show ⌊(1/2 : ℚ)⌋ = 0 by norm_num, add_zero] at hm

/-- Rounding propagates the bounds 0 and 99. -/
theorem jsRound_cast_bounds (q : ℚ) (h0 : 0 ≤ q) (hB : q ≤ 99) :
    (0:ℤ) ≤ jsRound q ∧ ((jsRound q : ℤ) : ℚ) ≤ 99 := by
  constructor
  · exact jsRound_nonneg q h0
  · exact_mod_cast jsRound_le_int q 99 (by exact_mod_cast hB)

/-- On every non-dual input with similarity scores in `[0,1]` and LLM grades
in `[0,100]`, the degraded scorer stays within `[0,99]`. -/
theorem calculateFinalScore_nondual_bounds (d : ℚ) (sm vm : Bool)
    (vs lg : Option ℚ)
    (hvs : ∀ q ∈ vs, 0 ≤ q ∧ q ≤ 1) (hlg : ∀ g ∈ lg, 0 ≤ g ∧ g ≤ 100)
    (hnd : ¬(sm = true ∧ vm = true)) :
    0 ≤ calculateFinalScore d sm vm vs lg ∧
      calculateFinalScore d sm vm vs lg ≤ 99 := by
  cases sm with
  | true =>
    cases vm with
    | true => exact absurd ⟨rfl, rfl⟩ hnd
    | false =>
      cases vs with
      | none =>
        cases lg with
        | none =>
          simp only [calculateFinalScore]
          norm_num
          exact jsRound_cast_bounds 70 (by norm_num) (by norm_num)
        | some g =>
          have hg := hlg g rfl
          simp only [calculateFinalScore]
          norm_num
          refine jsRound_cast_bounds _ ?_ ?_
          · refine le_min (by norm_num) ?_
            have : (0:ℚ) ≤ 70 + g * (1/2) := by linarith [hg.1]
            positivity
          · exact min_le_left _ _
      | some v =>
        have hv := hvs v rfl
        cases lg with
        | none =>
          simp only [calculateFinalScore]
          norm_num
          exact jsRound_cast_bounds 70 (by norm_num) (by norm_num)
        | some g =>
          have hg := hlg g rfl
          simp only [calculateFinalScore]
          norm_num
          refine jsRound_cast_bounds _ ?_ ?_
          · refine le_min (by norm_num) ?_
            have : (0:ℚ) ≤ 70 + g * (1/2) := by linarith [hg.1]
            positivity
          · exact min_le_left _ _
  | false =>
    cases vm with
    | true =>
      cases vs with
      | none =>
        cases lg with
        | none =>
          simp only [calculateFinalScore]
          norm_num
          exact jsRound_cast_bounds 0 (by norm_num) (by norm_num)
        | some g =>
          have hg := hlg g rfl
          simp only [calculateFinalScore]
          norm_num
          refine jsRound_cast_bounds _ ?_ ?_
          · linarith [hg.1]
          · linarith [hg.2]
      | some v =>
        have hv := hvs v rfl
        cases lg with
        | none =>
          simp only [calculateFinalScore]
          norm_num
          refine jsRound_cast_bounds _ ?_ ?_
          · nlinarith [hv.1, hv.2]
          · nlinarith [hv.1, hv.2]
        | some g =>
          have hg := hlg g rfl
          simp only [calculateFinalScore]
          norm_num
          refine jsRound_cast_bounds _ ?_ ?_
          · refine le_min (by norm_num) ?_
            have h0 : (0:ℚ) ≤ v * 80 + g * (1/2) := by nlinarith [hv.1, hg.1]
            positivity
          · exact min_le_left _ _
    | false =>
      cases lg with
      | none =>
        simp only [calculateFinalScore]
        norm_num
        exact jsRound_cast_bounds 0 (by norm_num) (by norm_num)
      | some g =>
        have hg := hlg g rfl
        simp only [calculateFinalScore]
        norm_num
        refine jsRound_cast_bounds _ ?_ ?_
        · linarith [hg.1]
        · linarith [hg.2]

/-- C6: on non-dual inputs with similarity in `[0,1]` and LLM grade in
`[0,100]`, the degraded scorer gives a structured-only match exactly 70, a
similarity-only match its similarity score scaled by 80 and rounded, and
never exceeds 99. -/
theorem calculateFinalScore_degraded (d v : ℚ) (sm vm : Bool)
    (vs lg : Option ℚ)
    (hv : 0 ≤ v ∧ v ≤ 1)
    (hvs : ∀ q ∈ vs, 0 ≤ q ∧ q ≤ 1) (hlg : ∀ g ∈ lg, 0 ≤ g ∧ g ≤ 100)
    (hnd : ¬(sm = true ∧ vm = true)) :
    calculateFinalScore d true false vs none = 70 ∧
      calculateFinalScore d false true (some v) none =
        ((jsRound (v * 80) : ℤ) : ℚ) ∧
      calculateFinalScore d sm vm vs lg ≤ 99 := by
  refine ⟨?_, ?_, (calculateFinalScore_nondual_bounds d sm vm vs lg hvs hlg hnd).2⟩
  · cases vs <;> simp [calculateFinalScore] <;> norm_num [jsRound]
  · simp [calculateFinalScore]

/-- Witness for C6 at the concrete inputs: structured-only with similarity 1
attached scores 70, similarity-only with score 1 rounds `1 * 80` to 80, and
the structured-only score is at most 99. -/
theorem calculateFinalScore_degraded_witness :
    calculateFinalScore 100 true false (some 1) none = 70 ∧
      calculateFinalScore 100 false true (some 1) none =
        ((jsRound ((1:ℚ) * 80) : ℤ) : ℚ) ∧
      calculateFinalScore 100 true false (some 1) none ≤ 99 :=
  calculateFinalScore_degraded 100 1 true false (some 1) none
    ⟨by norm_num, by norm_num⟩
    (by intro q hq; rw [Option.mem_def, Option.some_inj] at hq; subst hq
        exact ⟨by norm_num, by norm_num⟩)
    (by intro g hg; exact absurd hg (by simp))
    (by simp)

/-- C2: for weight configurations summing to 100 and inputs in valid ranges
(similarity in `[0,1]`, LLM grade in `[0,100]`, dual-match constant at its
default 100), the composite score of the sophisticated scorer and the result
of the degraded scorer both lie in `[0,100]`. -/
theorem composite_score_bounds (c : CandidateMatchData) (j : JobMatchData)
    (vs : Option ℚ) (sql : Bool) (w : MatchingWeights) (d : ℚ)
    (sm vm : Bool) (vs2 lg : Option ℚ)
    (hw : weightSum w = 100)
    (hvs : ∀ q ∈ vs, 0 ≤ q ∧ q ≤ 1)
    (hd : d = 100)
    (hvs2 : ∀ q ∈ vs2, 0 ≤ q ∧ q ≤ 1) (hlg : ∀ g ∈ lg, 0 ≤ g ∧ g ≤ 100) :
    (0 ≤ (calculateSophisticatedScore c j vs sql w).totalScore ∧
      (calculateSophisticatedScore c j vs sql w).totalScore ≤ 100) ∧
    (0 ≤ calculateFinalScore d sm vm vs2 lg ∧
      calculateFinalScore d sm vm vs2 lg ≤ 100) := by
  constructor
  · constructor
    · exact le_min (by norm_num) (le_max_left 0 _)
    · exact min_le_left _ _
  · by_cases hdual : sm = true ∧ vm = true
    · rw [hdual.1, hdual.2, hd]
      simp only [calculateFinalScore, Bool.and_self, if_true]
      norm_num
    · have hb := calculateFinalScore_nondual_bounds d sm vm vs2 lg hvs2 hlg hdual
      exact ⟨hb.1, by linarith [hb.2]⟩

/-- Witness for C2 at concrete inputs (default weights, dual-match
configuration 100, similarity score 1). -/
theorem composite_score_bounds_witness :
    (0 ≤ (calculateSophisticatedScore ⟨[], 0, none⟩ ⟨[], none, none⟩ (some 1)
        true defaultWeights).totalScore ∧
      (calculateSophisticatedScore ⟨[], 0, none⟩ ⟨[], none, none⟩ (some 1)
        true defaultWeights).totalScore ≤ 100) ∧
    (0 ≤ calculateFinalScore 100 true true (some 1) none ∧
      calculateFinalScore 100 true true (some 1) none ≤ 100) :=
  composite_score_bounds ⟨[], 0, none⟩ ⟨[], none, none⟩ (some 1) true
    defaultWeights 100 true true (some 1) none
    (by norm_num [weightSum, defaultWeights])
    (by intro q hq; rw [Option.mem_def, Option.some_inj] at hq; subst hq
        exact ⟨by norm_num, by norm_num⟩)
    rfl
    (by intro q hq; rw [Option.mem_def, Option.some_inj] at hq; subst hq
        exact ⟨by norm_num, by norm_num⟩)
    (by intro g hg; exact absurd hg (by simp))

/-- C1 counterexample: a dual-match candidate (structured and vector, vector
score 1) scored through the sophisticated path gets the weighted total 36,
not the dual-match constant 100: the sophisticated scorer has no dual-match
override.  The candidate has no skills and 0 years; the job has one required
skill. -/
theorem sophisticated_dual_match_not_constant :
    (calculateSophisticatedScore ⟨[], 0, none⟩
        ⟨[⟨"python".data, true, none⟩], none, none⟩ (some 1) true
        defaultWeights).totalScore = 36 ∧
      (36 : ℤ) ≠ 100 ∧ dualMatchScoreDefault = 100 := by
  refine ⟨?_, by decide, rfl⟩
  norm_num [calculateSophisticatedScore, calculateSkillScores, buildSkillMap,
    skillMatchPoints, profMatchPoints, findMatchedSkill, jsMapGet, reqWeight,
    calculateExperienceScore, deriveRequiredYears, experienceCurve,
    expScorePerfect, expScoreMildOver, expScoreFarOver, expScoreMildUnder,
    expScoreFarUnder, calculateLocationScore, defaultWeights, jsRound]

/-- C1 amended: the dual-match override exists only in the degraded fallback
path.  `calculateFinalScore` returns the configured dual-match constant
whenever both retrieval flags are set, regardless of the similarity and LLM
inputs; the sophisticated path computes the weighted formula instead. -/
theorem dual_match_constant_in_degraded_path (d : ℚ) (vs lg : Option ℚ) :
    calculateFinalScore d true true vs lg = d := by
  simp [calculateFinalScore]

/-- C7 counterexample: nothing rejects a weight configuration whose sum is not
100; the sophisticated scorer happily computes a composite score (here 72)
with weights summing to 200. -/
theorem scoring_accepts_unvalidated_weights :
    weightSum ⟨70, 30, 40, 20, 30, 10⟩ = 200 ∧
      (calculateSophisticatedScore ⟨[], 0, none⟩
        ⟨[⟨"python".data, true, none⟩], none, none⟩ (some 1) true
        ⟨70, 30, 40, 20, 30, 10⟩).totalScore = 72 := by
  constructor
  · norm_num [weightSum]
  · norm_num [calculateSophisticatedScore, calculateSkillScores, buildSkillMap,
      skillMatchPoints, profMatchPoints, findMatchedSkill, jsMapGet, reqWeight,
      calculateExperienceScore, deriveRequiredYears, experienceCurve,
      expScorePerfect, expScoreMildOver, expScoreFarOver, expScoreMildUnder,
      expScoreFarUnder, calculateLocationScore, jsRound]

/-- C7 amended: no startup validation of the factor weights exists; the scorer
accepts arbitrary weights.  The only weight configuration in the program is
the hard-coded default, and it does sum to 100. -/
theorem defaultWeights_sum_100 : weightSum defaultWeights = 100 := by
  norm_num [weightSum, defaultWeights]

/-- The requirement weight is at least 1. -/
theorem reqWeight_ge_one (r : JobRequirement) : 1 ≤ reqWeight r := by
  rw [reqWeight]
  split <;> norm_num

/-- C3: per-requirement skill credit: an exact (case-insensitive) name match
earns `weight * 100`; a match accepted only by a non-exact method earns
`weight * 80`; an unmatched required skill earns 0; an unmatched non-required
skill earns `weight * 20`; and the credit of an exact match is never below
the credit any other candidate skill set earns on the same requirement. -/
theorem skill_credit_rules (skills skills2 : List Skill) (req : JobRequirement) :
    ((jsMapGet (buildSkillMap skills) (lowerStr req.skill)).isSome →
        skillMatchPoints (buildSkillMap skills) req = reqWeight req * 100) ∧
      (jsMapGet (buildSkillMap skills) (lowerStr req.skill) = none →
        (findMatchedSkill (buildSkillMap skills) (lowerStr req.skill)).isSome →
        skillMatchPoints (buildSkillMap skills) req = reqWeight req * 80) ∧
      (findMatchedSkill (buildSkillMap skills) (lowerStr req.skill) = none →
        req.required = true →
        skillMatchPoints (buildSkillMap skills) req = 0) ∧
      (findMatchedSkill (buildSkillMap skills) (lowerStr req.skill) = none →
        req.required = false →
        skillMatchPoints (buildSkillMap skills) req = reqWeight req * 20) ∧
      ((jsMapGet (buildSkillMap skills) (lowerStr req.skill)).isSome →
        skillMatchPoints (buildSkillMap skills2) req ≤
          skillMatchPoints (buildSkillMap skills) req) := by
  refine ⟨?_, ?_, ?_, ?_, ?_⟩
  · intro hx
    obtain ⟨s, hs⟩ := Option.isSome_iff_exists.mp hx
    simp [skillMatchPoints, findMatchedSkill, hs]
  · intro hn hf
    obtain ⟨s, hs⟩ := Option.isSome_iff_exists.mp hf
    simp [skillMatchPoints, hs, hn]
  · intro hn hr
    simp [skillMatchPoints, hn, hr]
  · intro hn hr
    simp [skillMatchPoints, hn, hr]
  · intro hx
    obtain ⟨s, hs⟩ := Option.isSome_iff_exists.mp hx
    have hright : skillMatchPoints (buildSkillMap skills) req =
        reqWeight req * 100 := by
      simp [skillMatchPoints, findMatchedSkill, hs]
    rw [hright]
    have hw := reqWeight_ge_one req
    rw [skillMatchPoints]
    cases hfm : findMatchedSkill (buildSkillMap skills2) (lowerStr req.skill) with
    | none =>
      simp only []
      split
      · linarith
      · nlinarith
    | some s2 =>
      simp only []
      split
      · nlinarith
      · nlinarith

/-- Witness for C3: exact match (Python) earns 2*100; a containment-only match
(PyTorch for torch) earns 2*80; an unmatched required skill earns 0; an
unmatched preferred skill earns 1*20; and the exact-match credit dominates the
credit of a candidate with no skills. -/
theorem skill_credit_rules_witness :
    skillMatchPoints (buildSkillMap [⟨"Python".data, SkillLevel.expert, some 8⟩])
        ⟨"python".data, true, none⟩ =
      reqWeight ⟨"python".data, true, none⟩ * 100 ∧
    skillMatchPoints (buildSkillMap [⟨"PyTorch".data, SkillLevel.advanced, none⟩])
        ⟨"torch".data, true, none⟩ =
      reqWeight ⟨"torch".data, true, none⟩ * 80 ∧
    skillMatchPoints (buildSkillMap ([] : List Skill))
        ⟨"python".data, true, none⟩ = 0 ∧
    skillMatchPoints (buildSkillMap ([] : List Skill))
        ⟨"docker".data, false, none⟩ =
      reqWeight ⟨"docker".data, false, none⟩ * 20 ∧
    skillMatchPoints (buildSkillMap ([] : List Skill))
        ⟨"python".data, true, none⟩ ≤
      skillMatchPoints (buildSkillMap [⟨"Python".data, SkillLevel.expert, some 8⟩])
        ⟨"python".data, true, none⟩ :=
  ⟨(skill_credit_rules [⟨"Python".data, SkillLevel.expert, some 8⟩] []
      ⟨"python".data, true, none⟩).1 (by decide),
   (skill_credit_rules [⟨"PyTorch".data, SkillLevel.advanced, none⟩] []
      ⟨"torch".data, true, none⟩).2.1 (by decide) (by decide),
   (skill_credit_rules [] [] ⟨"python".data, true, none⟩).2.2.1 (by decide) rfl,
   (skill_credit_rules [] [] ⟨"docker".data, false, none⟩).2.2.2.1 (by decide) rfl,
   (skill_credit_rules [⟨"Python".data, SkillLevel.expert, some 8⟩] []
      ⟨"python".data, true, none⟩).2.2.2.2 (by decide)⟩

/-- Lookup on a non-empty association list, as an if-chain. -/
theorem jsMapGet_cons {α β : Type} [DecidableEq α] (p : α × β)
    (t : List (α × β)) (k : α) :
    jsMapGet (p :: t) k = if p.1 = k then some p.2 else jsMapGet t k := by
  by_cases hp : p.1 = k
  · rw [jsMapGet, List.find?_cons_of_pos _ (by simpa using hp), if_pos hp]
    rfl
  · rw [jsMapGet, List.find?_cons_of_neg _ (by simpa using hp), if_neg hp]
    rfl

/-- Replacing the entries of one key does not change lookups of other keys. -/
theorem jsMapGet_map_replace_ne {α β : Type} [DecidableEq α]
    (m : List (α × β)) (k k2 : α) (v : β) (h : k2 ≠ k) :
    jsMapGet (m.map (fun p => if p.1 = k then (k, v) else p)) k2 =
      jsMapGet m k2 := by
  induction m with
  | nil => rfl
  | cons p t ih =>
    rw [List.map_cons, jsMapGet_cons, jsMapGet_cons]
    by_cases hp : p.1 = k
    · rw [if_pos hp]
      have hk2 : ¬((k, v).1 = k2) := by simpa using fun hh => h hh.symm
      rw [if_neg hk2, if_neg (show ¬(p.1 = k2) from fun hh => h (hh.symm.trans hp))]
      exact ih
    · rw [if_neg hp]
      by_cases hp2 : p.1 = k2
      · rw [if_pos hp2, if_pos hp2]
      · rw [if_neg hp2, if_neg hp2]
        exact ih

/-- Replacing the entries of a key present in the list makes its lookup return
the new value. -/
theorem jsMapGet_map_replace_self {α β : Type} [DecidableEq α]
    (m : List (α × β)) (k : α) (v : β)
    (hany : m.any (fun p => p.1 = k) = true) :
    jsMapGet (m.map (fun p => if p.1 = k then (k, v) else p)) k = some v := by
  induction m with
  | nil => simp at hany
  | cons p t ih =>
    rw [List.map_cons, jsMapGet_cons]
    by_cases hp : p.1 = k
    · rw [if_pos hp]
      simp
    · rw [if_neg hp, if_neg hp]
      simp only [List.any_cons, Bool.or_eq_true, decide_eq_true_eq] at hany
      rcases hany with h1 | h2
      · exact absurd h1 hp
      · exact ih (by simpa using h2)

/-- Setting a key makes it retrievable with the new value. -/
theorem jsMapGet_set_self {α β : Type} [DecidableEq α]
    (m : List (α × β)) (k : α) (v : β) :
    jsMapGet (jsMapSet m k v) k = some v := by
  rw [jsMapSet]
  by_cases hany : m.any (fun p => p.1 = k) = true
  · rw [if_pos hany]
    exact jsMapGet_map_replace_self m k v hany
  · rw [if_neg hany]
    induction m with
    | nil => simp [jsMapGet_cons, jsMapGet]
    | cons p t ih =>
      simp only [List.any_cons, Bool.or_eq_true, decide_eq_true_eq,
        not_or] at hany
      rw [List.cons_append, jsMapGet_cons, if_neg hany.1]
      exact ih (by simpa using hany.2)

/-- Setting one key leaves every other key unchanged. -/
theorem jsMapGet_set_ne {α β : Type} [DecidableEq α]
    (m : List (α × β)) (k k2 : α) (v : β) (h : k2 ≠ k) :
    jsMapGet (jsMapSet m k v) k2 = jsMapGet m k2 := by
  rw [jsMapSet]
  by_cases hany : m.any (fun p => p.1 = k) = true
  · rw [if_pos hany]
    exact jsMapGet_map_replace_ne m k k2 v h
  · rw [if_neg hany]
    induction m with
    | nil =>
      rw [List.nil_append, jsMapGet_cons]
      rw [if_neg (by simpa using fun hh => h hh.symm)]
    | cons p t ih =>
      rw [List.cons_append, jsMapGet_cons, jsMapGet_cons]
      by_cases hp2 : p.1 = k2
      · rw [if_pos hp2, if_pos hp2]
      · rw [if_neg hp2, if_neg hp2]
        exact ih (by simp only [List.any_cons, Bool.or_eq_true] at hany; tauto)

/-- Replacing the entries of one key does not change the key list. -/
theorem keys_map_replace {α β : Type} [DecidableEq α]
    (m : List (α × β)) (k : α) (v : β) :
    (m.map (fun p => if p.1 = k then (k, v) else p)).map Prod.fst =
      m.map Prod.fst := by
  induction m with
  | nil => rfl
  | cons p t ih =>
    simp only [List.map_cons]
    rw [ih]
    by_cases hp : p.1 = k
    · rw [if_pos hp, hp]
    · rw [if_neg hp]

/-- `jsMapSet` preserves distinctness of the keys. -/
theorem jsMapSet_keys_nodup {α β : Type} [DecidableEq α]
    (m : List (α × β)) (k : α) (v : β)
    (h : (m.map Prod.fst).Nodup) :
    ((jsMapSet m k v).map Prod.fst).Nodup := by
  rw [jsMapSet]
  by_cases hany : m.any (fun p => p.1 = k) = true
  · rw [if_pos hany, keys_map_replace]
    exact h
  · rw [if_neg hany, List.map_append]
    rw [List.nodup_append]
    refine ⟨h, by simp, ?_⟩
    intro a ha hk
    simp only [List.map_cons, List.map_nil, List.mem_singleton] at hk
    subst hk
    simp only [List.mem_map] at ha
    obtain ⟨p, hp, hpk⟩ := ha
    simp only [List.any_eq_true, decide_eq_true_eq, not_exists] at hany
    exact hany p (by exact ⟨hp, hpk⟩)

/-- The SQL pass of the merge: a candidate identifier maps to the
structured-only record exactly when it occurs in the SQL result list. -/
theorem sqlFold_get (sqlIds : List String) (id : String) :
    ∀ m : List (String × RetrievalEntry),
      jsMapGet (sqlIds.foldl (fun m i => jsMapSet m i ⟨true, false, none⟩) m) id =
        if id ∈ sqlIds then some ⟨true, false, none⟩ else jsMapGet m id := by
  induction sqlIds with
  | nil => simp
  | cons j rest ih =>
    intro m
    rw [List.foldl_cons, ih]
    by_cases hid : id ∈ rest
    · rw [if_pos hid, if_pos (List.mem_cons_of_mem j hid)]
    · rw [if_neg hid]
      by_cases hij : id = j
      · subst hij
        rw [if_pos (List.mem_cons_self id rest), jsMapGet_set_self]
      · rw [if_neg (by simp [List.mem_cons, hij, hid]),
          jsMapGet_set_ne m j id _ hij]

/-- The key list of the SQL pass of the merge stays duplicate-free. -/
theorem sqlFold_keys_nodup (sqlIds : List String) :
    ∀ m : List (String × RetrievalEntry), ((m.map Prod.fst).Nodup) →
      (((sqlIds.foldl (fun m i => jsMapSet m i ⟨true, false, none⟩) m)).map
        Prod.fst).Nodup := by
  induction sqlIds with
  | nil => exact fun m h => h
  | cons j rest ih =>
    intro m h
    rw [List.foldl_cons]
    exact ih _ (jsMapSet_keys_nodup m j _ h)

/-- A vector-merge step only touches the key of its record. -/
theorem mergeVectorStep_get_ne (m : List (String × RetrievalEntry))
    (r : String × ℚ) (id : String) (h : id ≠ r.1) :
    jsMapGet (mergeVectorStep m r) id = jsMapGet m id := by
  rw [mergeVectorStep]
  cases jsMapGet m r.1 with
  | none => exact jsMapGet_set_ne m r.1 id _ h
  | some e => exact jsMapGet_set_ne m r.1 id _ h

/-- The vector pass leaves identifiers outside the vector results unchanged. -/
theorem vecFold_get_none (vec : List (String × ℚ)) (id : String)
    (h : id ∉ vec.map Prod.fst) :
    ∀ m : List (String × RetrievalEntry),
      jsMapGet (vec.foldl mergeVectorStep m) id = jsMapGet m id := by
  induction vec with
  | nil => exact fun m => rfl
  | cons r rest ih =>
    intro m
    simp only [List.map_cons, List.mem_cons, not_or] at h
    rw [List.foldl_cons, ih h.2, mergeVectorStep_get_ne m r id h.1]

/-- The vector pass on an identifier present in the vector results (whose
identifiers are duplicate-free): the prior record is upgraded in place, or a
vector-only record is created. -/
theorem vecFold_get_mem (vec : List (String × ℚ)) (id : String) (s : ℚ) :
    (vec.map Prod.fst).Nodup → (id, s) ∈ vec →
    ∀ m : List (String × RetrievalEntry),
      jsMapGet (vec.foldl mergeVectorStep m) id =
        some (match jsMapGet m id with
          | some e => { e with vectorMatch := true, vectorScore := some s }
          | none => ⟨false, true, some s⟩) := by
  induction vec with
  | nil =>
    intro _ hmem m
    exact absurd hmem (by simp)
  | cons r rest ih =>
    intro hnd hmem m
    rw [List.foldl_cons]
    rcases List.mem_cons.mp hmem with heq | htail
    · have hr1 : r.1 = id := by rw [← heq]
      have hr2 : r.2 = s := by rw [← heq]
      simp only [List.map_cons] at hnd
      have hnotin : id ∉ rest.map Prod.fst := by
        rw [← hr1]
        exact (List.nodup_cons.mp hnd).1
      rw [vecFold_get_none rest id hnotin]
      rw [mergeVectorStep, hr1, hr2]
      cases hm : jsMapGet m id with
      | none => rw [jsMapGet_set_self]
      | some e => rw [jsMapGet_set_self]
    · have hr1 : id ≠ r.1 := by
        intro hh
        simp only [List.map_cons] at hnd
        exact (List.nodup_cons.mp hnd).1
          (hh ▸ List.mem_map.mpr ⟨(id, s), htail, rfl⟩)
      have hrest : (rest.map Prod.fst).Nodup := by
        simp only [List.map_cons] at hnd
        exact (List.nodup_cons.mp hnd).2
      rw [ih hrest htail (mergeVectorStep m r),
        mergeVectorStep_get_ne m r id hr1]

/-- The vector pass preserves duplicate-free keys. -/
theorem vecFold_keys_nodup (vec : List (String × ℚ)) :
    ∀ m : List (String × RetrievalEntry), ((m.map Prod.fst).Nodup) →
      ((vec.foldl mergeVectorStep m).map Prod.fst).Nodup := by
  induction vec with
  | nil => exact fun m h => h
  | cons r rest ih =>
    intro m h
    rw [List.foldl_cons]
    refine ih _ ?_
    rw [mergeVectorStep]
    cases jsMapGet m r.1 with
    | none => exact jsMapSet_keys_nodup m r.1 _ h
    | some e => exact jsMapSet_keys_nodup m r.1 _ h

/-- C5: the merge produces one record per candidate identity (duplicate-free
keys), and the flags reflect the sources: SQL-only gives
`{sqlMatch, not vectorMatch, no score}`, vector-only gives
`{not sqlMatch, vectorMatch, score}`, and both give
`{sqlMatch, vectorMatch, score}`. -/
theorem merge_results_correct (sqlIds : List String) (vec : List (String × ℚ))
    (id : String) (s : ℚ)
    (hnd : (vec.map Prod.fst).Nodup) :
    (((mergeResults sqlIds vec).map Prod.fst).Nodup) ∧
      (id ∈ sqlIds → id ∉ vec.map Prod.fst →
        jsMapGet (mergeResults sqlIds vec) id = some ⟨true, false, none⟩) ∧
      (id ∉ sqlIds → (id, s) ∈ vec →
        jsMapGet (mergeResults sqlIds vec) id = some ⟨false, true, some s⟩) ∧
      (id ∈ sqlIds → (id, s) ∈ vec →
        jsMapGet (mergeResults sqlIds vec) id = some ⟨true, true, some s⟩) := by
  refine ⟨?_, ?_, ?_, ?_⟩
  · rw [mergeResults]
    exact vecFold_keys_nodup vec _ (sqlFold_keys_nodup sqlIds [] (by simp))
  · intro hin hnot
    rw [mergeResults, vecFold_get_none vec id hnot, sqlFold_get sqlIds id [],
      if_pos hin]
  · intro hnin hmem
    rw [mergeResults, vecFold_get_mem vec id s hnd hmem, sqlFold_get sqlIds id [],
      if_neg hnin]
    rfl
  · intro hin hmem
    rw [mergeResults, vecFold_get_mem vec id s hnd hmem, sqlFold_get sqlIds id [],
      if_pos hin]

/-- Witness for C5 at `sqlIds = [a, b]`, vector results `[(b, 1), (c, 0)]`:
no duplicated identity, `a` is SQL-only, `c` is vector-only with its score,
`b` is a dual match with its score. -/
theorem merge_results_correct_witness :
    ((mergeResults ["a", "b"] [("b", 1), ("c", 0)]).map Prod.fst).Nodup ∧
      jsMapGet (mergeResults ["a", "b"] [("b", 1), ("c", 0)]) "a" =
        some ⟨true, false, none⟩ ∧
      jsMapGet (mergeResults ["a", "b"] [("b", 1), ("c", 0)]) "c" =
        some ⟨false, true, some 0⟩ ∧
      jsMapGet (mergeResults ["a", "b"] [("b", 1), ("c", 0)]) "b" =
        some ⟨true, true, some 1⟩ :=
  ⟨(merge_results_correct ["a", "b"] [("b", 1), ("c", 0)] "a" 0 (by decide)).1,
   (merge_results_correct ["a", "b"] [("b", 1), ("c", 0)] "a" 0
      (by decide)).2.1 (by decide) (by decide),
   (merge_results_correct ["a", "b"] [("b", 1), ("c", 0)] "c" 0
      (by decide)).2.2.1 (by decide)
      (List.mem_cons_of_mem _ (List.mem_cons_self _ _)),
   (merge_results_correct ["a", "b"] [("b", 1), ("c", 0)] "b" 1
      (by decide)).2.2.2 (by decide) (List.mem_cons_self _ _)⟩
